import Mathlib

/-! Shallow embedding of the pytest-bdd `gherkin_parser` module: the AST
materialization layer (the `from_dict` builders), the `DataTable`
operations `transpose` and `to_dict`, and the diagnostic-line error
classifier with its ordered pattern list. -/

namespace Gherkin

/-- Untyped Python values, as produced by the external gherkin parser. -/
inductive PyVal where
  | none
  | bool (b : Bool)
  | int (n : Int)
  | str (s : String)
  | list (xs : List PyVal)
  | dict (entries : List (String × PyVal))
deriving Repr, Inhabited

/-- `d[k]` lookup on a Python dict modelled as an ordered association list
(first binding wins; the external parser never emits duplicate keys). -/
def pyGet : List (String × PyVal) → String → Option PyVal
  | [], _ => Option.none
  | (k', v) :: rest, k => if k' = k then some v else pyGet rest k

def keyErr (k : String) : String := "KeyError: " ++ k

/-- `data[k]`: raises `KeyError` when the key is absent. -/
def pyIndex (d : List (String × PyVal)) (k : String) : Except String PyVal :=
  match pyGet d k with
  | some v => .ok v
  | Option.none => .error (keyErr k)

/-- Python truthiness of the modelled values. -/
def truthy : PyVal → Bool
  | .none => false
  | .bool b => b
  | .int n => n != 0
  | .str s => s != ""
  | .list xs => !xs.isEmpty
  | .dict entries => !entries.isEmpty

def asStr : PyVal → Except String String
  | .str s => .ok s
  | _ => .error "TypeError: expected str"

def asInt : PyVal → Except String Int
  | .int n => .ok n
  | _ => .error "TypeError: expected int"

def asList : PyVal → Except String (List PyVal)
  | .list xs => .ok xs
  | _ => .error "TypeError: expected list"

def asDict : PyVal → Except String (List (String × PyVal))
  | .dict entries => .ok entries
  | _ => .error "TypeError: expected dict"

/-- `_to_raw_string`: `normal_string.replace("\\", "\\\\")`, i.e. every
backslash character becomes two backslash characters. -/
def _to_raw_string (s : String) : String :=
  ⟨s.data.foldr (fun c acc => if c = '\\' then '\\' :: '\\' :: acc else c :: acc) []⟩

/-- The `Location` dataclass; the source declares the fields in the order
(column, line), and `Location(0, 0)` sets both to zero. -/
structure Location where
  column : Int
  line : Int
deriving Repr, DecidableEq, Inhabited

def Location.from_dict (v : PyVal) : Except String Location := do
  let d ← asDict v
  let column ← pyIndex d "column" >>= asInt
  let line ← pyIndex d "line" >>= asInt
  return ⟨column, line⟩

structure Comment where
  location : Location
  text : String
deriving Repr, DecidableEq, Inhabited

def Comment.from_dict (v : PyVal) : Except String Comment := do
  let d ← asDict v
  let location ← pyIndex d "location" >>= Location.from_dict
  let text ← pyIndex d "text" >>= asStr
  return ⟨location, text⟩

structure Cell where
  location : Location
  value : String
deriving Repr, DecidableEq, Inhabited

def Cell.from_dict (v : PyVal) : Except String Cell := do
  let d ← asDict v
  let location ← pyIndex d "location" >>= Location.from_dict
  let value ← pyIndex d "value" >>= asStr
  return ⟨location, _to_raw_string value⟩

structure Row where
  id : String
  location : Location
  cells : List Cell
deriving Repr, DecidableEq, Inhabited

def Row.from_dict (v : PyVal) : Except String Row := do
  let d ← asDict v
  let id ← pyIndex d "id" >>= asStr
  let location ← pyIndex d "location" >>= Location.from_dict
  let cellsRaw ← pyIndex d "cells" >>= asList
  let cells ← cellsRaw.mapM Cell.from_dict
  return ⟨id, location, cells⟩

structure ExamplesTable where
  location : Location
  name : Option String := Option.none
  table_header : Option Row := Option.none
  table_body : List Row := []
deriving Repr, DecidableEq, Inhabited

def ExamplesTable.from_dict (v : PyVal) : Except String ExamplesTable := do
  let d ← asDict v
  let location ← pyIndex d "location" >>= Location.from_dict
  let name ← match pyGet d "name" with
    | some (.str s) => pure (some s)
    | some .none => pure Option.none
    | Option.none => pure Option.none
    | some _ => Except.error "TypeError: expected str"
  let table_header ← match pyGet d "tableHeader" with
    | some v' => if truthy v' then some <$> Row.from_dict v' else pure Option.none
    | Option.none => pure Option.none
  -- the source reads `data.get("tableBody", [])`: absent key defaults to []
  let bodyRaw ← match pyGet d "tableBody" with
    | some v' => asList v'
    | Option.none => pure []
  let table_body ← bodyRaw.mapM Row.from_dict
  return ⟨location, name, table_header, table_body⟩

structure DataTable where
  location : Location
  rows : List Row
deriving Repr, DecidableEq, Inhabited

def DataTable.from_dict (v : PyVal) : Except String DataTable := do
  let d ← asDict v
  let location ← pyIndex d "location" >>= Location.from_dict
  -- the source reads `data.get("rows", [])`: an absent "rows" key defaults
  -- to an empty list instead of raising KeyError
  let rowsRaw ← match pyGet d "rows" with
    | some v' => asList v'
    | Option.none => pure []
  let rows ← rowsRaw.mapM Row.from_dict
  return ⟨location, rows⟩

/-- The padding cell `Cell(location=Location(0, 0), value="")`. -/
def emptyCell : Cell := ⟨⟨0, 0⟩, ""⟩

/-- Python `max(...)` over a list of naturals; the source only applies it
to a non-empty list, where folding from 0 agrees with Python `max`. -/
def listMax (xs : List Nat) : Nat := xs.foldl max 0

def transposeColumn (cells_matrix : List (List Cell)) (col_idx : Nat) : List Cell :=
  cells_matrix.map fun row =>
    if h : col_idx < row.length then row.get ⟨col_idx, h⟩ else emptyCell

def DataTable.transpose (t : DataTable) : DataTable :=
  if t.rows.isEmpty then t
  else
    let cells_matrix := t.rows.map Row.cells
    let max_columns := listMax (cells_matrix.map List.length)
    let transposed_cells := (List.range max_columns).map fun col_idx =>
      Row.mk (toString col_idx) t.location (transposeColumn cells_matrix col_idx)
    ⟨t.location, transposed_cells⟩

def minLen : List (List String) → Nat
  | [] => 0
  | [r] => r.length
  | r :: r2 :: rs => min r.length (minLen (r2 :: rs))

/-- Python `zip(*rows)` over a list of rows of strings: the list of
columns, truncated to the shortest row; `zip()` of no rows is empty. -/
def zipStar (rows : List (List String)) : List (List String) :=
  match rows with
  | [] => []
  | _ => (List.range (minLen rows)).map fun i => rows.map (fun r => r.getD i "")

/-- Python dict assignment `d[k] = v`: overwrites in place when the key is
already present (keeping its position), appends otherwise. -/
def pyDictInsert (d : List (String × List String)) (k : String) (v : List String) :
    List (String × List String) :=
  if d.any (fun p => p.1 == k) then d.map (fun p => if p.1 == k then (k, v) else p)
  else d ++ [(k, v)]

/-- Lookup in the modelled dict: the value of the first binding of `k`. -/
def pyLookup : List (String × List String) → String → Option (List String)
  | [], _ => Option.none
  | p :: rest, k => if p.1 = k then some p.2 else pyLookup rest k

/-- The dict comprehension of `to_dict`: walks the header left to right,
reading `transposed_values[i]`, which raises `IndexError` past its end. -/
def dictComp : List (String × List String) → List String → List (List String) →
    Except String (List (String × List String))
  | acc, [], _ => .ok acc
  | _, _ :: _, [] => .error "IndexError: list index out of range"
  | acc, h :: hs, c :: cs => dictComp (pyDictInsert acc h c) hs cs

def dummyRow : Row := ⟨"", ⟨0, 0⟩, []⟩

def DataTable.to_dict (t : DataTable) : Except String (List (String × List String)) :=
  if t.rows.length < 2 then
    .error "DataTable needs at least two rows: one for headers and one for values"
  else
    -- `self.rows[0]` is safe here: the guard above ensures at least 2 rows
    let header := (t.rows.headD dummyRow).cells.map Cell.value
    let values_rows := (t.rows.drop 1).map fun r => r.cells.map Cell.value
    let transposed_values := zipStar values_rows
    dictComp [] header transposed_values

def isIndentChar (c : Char) : Bool := c == ' ' || c == '\t'

def commonPrefix : List Char → List Char → List Char
  | a :: as, b :: bs => if a = b then a :: commonPrefix as bs else []
  | _, _ => []

def leadingIndent (l : List Char) : List Char := l.takeWhile isIndentChar

def hasContent (l : List Char) : Bool := l.any (fun c => !isIndentChar c)

/-- `textwrap.dedent`: lines consisting only of spaces and tabs are
emptied, then the longest common leading space/tab prefix of the lines
with content is removed from the start of every line. -/
def pyDedent (s : String) : String :=
  let lines := (s.split (· = '\n')).map String.data
  let lines := lines.map fun l => if !l.isEmpty && l.all isIndentChar then [] else l
  let indents := (lines.filter hasContent).map leadingIndent
  let margin : Option (List Char) :=
    match indents with
    | [] => Option.none
    | i :: is => some (is.foldl commonPrefix i)
  let out := match margin with
    | Option.none => lines
    | some m => lines.map fun l => if m.isPrefixOf l then l.drop m.length else l
  String.intercalate "\n" (out.map List.asString)

structure DocString where
  content : String
  delimiter : String
  location : Location
deriving Repr, DecidableEq, Inhabited

def DocString.from_dict (v : PyVal) : Except String DocString := do
  let d ← asDict v
  let content ← pyIndex d "content" >>= asStr
  let delimiter ← pyIndex d "delimiter" >>= asStr
  let location ← pyIndex d "location" >>= Location.from_dict
  return ⟨pyDedent content, delimiter, location⟩

/-- Characters removed by Python `str.strip()` (the ASCII whitespace the
gherkin keywords can carry). -/
def isPyWS (c : Char) : Bool :=
  c == ' ' || c == '\t' || c == '\n' || c == '\r' || c == '\x0b' || c == '\x0c'

def pyStrip (s : String) : String :=
  ⟨((s.data.dropWhile isPyWS).reverse.dropWhile isPyWS).reverse⟩

structure Step where
  id : String
  keyword : String
  keyword_type : String
  location : Location
  text : String
  data_table : Option DataTable := Option.none
  doc_string : Option DocString := Option.none
deriving Repr, DecidableEq, Inhabited

def Step.from_dict (v : PyVal) : Except String Step := do
  let d ← asDict v
  let id ← pyIndex d "id" >>= asStr
  let keyword ← pyIndex d "keyword" >>= asStr
  let keyword_type ← pyIndex d "keywordType" >>= asStr
  let location ← pyIndex d "location" >>= Location.from_dict
  let text ← pyIndex d "text" >>= asStr
  let data_table ← match pyGet d "dataTable" with
    | some v' => if truthy v' then some <$> DataTable.from_dict v' else pure Option.none
    | Option.none => pure Option.none
  let doc_string ← match pyGet d "docString" with
    | some v' => if truthy v' then some <$> DocString.from_dict v' else pure Option.none
    | Option.none => pure Option.none
  return ⟨id, pyStrip keyword, keyword_type, location, text, data_table, doc_string⟩

structure Tag where
  id : String
  location : Location
  name : String
deriving Repr, DecidableEq, Inhabited

def Tag.from_dict (v : PyVal) : Except String Tag := do
  let d ← asDict v
  let id ← pyIndex d "id" >>= asStr
  let location ← pyIndex d "location" >>= Location.from_dict
  let name ← pyIndex d "name" >>= asStr
  return ⟨id, location, name⟩

structure Scenario where
  id : String
  keyword : String
  location : Location
  name : String
  description : String
  steps : List Step
  tags : List Tag
  examples : List ExamplesTable := []
deriving Repr, DecidableEq, Inhabited

def Scenario.from_dict (v : PyVal) : Except String Scenario := do
  let d ← asDict v
  let id ← pyIndex d "id" >>= asStr
  let keyword ← pyIndex d "keyword" >>= asStr
  let location ← pyIndex d "location" >>= Location.from_dict
  let name ← pyIndex d "name" >>= asStr
  let description ← pyIndex d "description" >>= asStr
  let stepsRaw ← pyIndex d "steps" >>= asList
  let steps ← stepsRaw.mapM Step.from_dict
  let tagsRaw ← pyIndex d "tags" >>= asList
  let tags ← tagsRaw.mapM Tag.from_dict
  let examplesRaw ← pyIndex d "examples" >>= asList
  let examples ← examplesRaw.mapM ExamplesTable.from_dict
  return ⟨id, keyword, location, name, description, steps, tags, examples⟩

structure Background where
  id : String
  keyword : String
  location : Location
  name : String
  description : String
  steps : List Step
deriving Repr, DecidableEq, Inhabited

def Background.from_dict (v : PyVal) : Except String Background := do
  let d ← asDict v
  let id ← pyIndex d "id" >>= asStr
  let keyword ← pyIndex d "keyword" >>= asStr
  let location ← pyIndex d "location" >>= Location.from_dict
  let name ← pyIndex d "name" >>= asStr
  let description ← pyIndex d "description" >>= asStr
  let stepsRaw ← pyIndex d "steps" >>= asList
  let steps ← stepsRaw.mapM Step.from_dict
  return ⟨id, keyword, location, name, description, steps⟩

-- `Rule` and `Child` are mutually recursive dataclasses in the source:
-- a Rule owns a list of Children and a Child may hold a Rule.
mutual

inductive Rule where
  | mk (id : String) (keyword : String) (location : Location) (name : String)
      (description : String) (tags : List Tag) (children : List Child)

inductive Child where
  | mk (background : Option Background) (rule : Option Rule) (scenario : Option Scenario)

end

def Child.background : Child → Option Background
  | .mk b _ _ => b

def Child.rule : Child → Option Rule
  | .mk _ r _ => r

def Child.scenario : Child → Option Scenario
  | .mk _ _ s => s

theorem pyGet_sizeOf {d : List (String × PyVal)} {k : String} {v : PyVal}
    (h : pyGet d k = some v) : sizeOf v < sizeOf (PyVal.dict d) := by
  induction d with
  | nil => simp [pyGet] at h
  | cons p rest ih =>
    obtain ⟨k', v'⟩ := p
    simp only [pyGet] at h
    split at h
    · cases h
      simp
      omega
    · have := ih h
      simp at this ⊢
      omega

mutual

def Rule.from_dict : PyVal → Except String Rule
  | .dict d => do
    let id ← pyIndex d "id" >>= asStr
    let keyword ← pyIndex d "keyword" >>= asStr
    let location ← pyIndex d "location" >>= Location.from_dict
    let name ← pyIndex d "name" >>= asStr
    let description ← pyIndex d "description" >>= asStr
    let tagsRaw ← pyIndex d "tags" >>= asList
    let tags ← tagsRaw.mapM Tag.from_dict
    let children ← match h : pyGet d "children" with
      | some (.list xs) => childrenFromList xs
      | some _ => Except.error "TypeError: expected list"
      | Option.none => Except.error (keyErr "children")
    return Rule.mk id keyword location name description tags children
  | _ => .error "TypeError: expected dict"
termination_by v => sizeOf v
decreasing_by
  have := pyGet_sizeOf h
  simp at this ⊢
  omega

def childrenFromList : List PyVal → Except String (List Child)
  | [] => .ok []
  | v :: vs => do
    let c ← Child.from_dict v
    let cs ← childrenFromList vs
    return c :: cs
termination_by vs => sizeOf vs
decreasing_by
  all_goals (simp; try omega)

def Child.from_dict : PyVal → Except String Child
  | .dict d => do
    let background ← match pyGet d "background" with
      | some v => if truthy v then some <$> Background.from_dict v else pure Option.none
      | Option.none => pure Option.none
    let rule ← match h : pyGet d "rule" with
      | some v => if truthy v then some <$> Rule.from_dict v else pure Option.none
      | Option.none => pure Option.none
    let scenario ← match pyGet d "scenario" with
      | some v => if truthy v then some <$> Scenario.from_dict v else pure Option.none
      | Option.none => pure Option.none
    return Child.mk background rule scenario
  | _ => .error "TypeError: expected dict"
termination_by v => sizeOf v
decreasing_by
  have := pyGet_sizeOf h
  simp at this ⊢
  omega

end

structure Feature where
  keyword : String
  location : Location
  tags : List Tag
  name : String
  description : String
  children : List Child
deriving Inhabited

def Feature.from_dict (v : PyVal) : Except String Feature := do
  let d ← asDict v
  let keyword ← pyIndex d "keyword" >>= asStr
  let location ← pyIndex d "location" >>= Location.from_dict
  let tagsRaw ← pyIndex d "tags" >>= asList
  let tags ← tagsRaw.mapM Tag.from_dict
  let name ← pyIndex d "name" >>= asStr
  let description ← pyIndex d "description" >>= asStr
  let childrenRaw ← pyIndex d "children" >>= asList
  let children ← childrenRaw.mapM Child.from_dict
  return ⟨keyword, location, tags, name, description, children⟩

structure GherkinDocument where
  feature : Feature
  comments : List Comment
deriving Inhabited

def GherkinDocument.from_dict (v : PyVal) : Except String GherkinDocument := do
  let d ← asDict v
  let feature ← pyIndex d "feature" >>= Feature.from_dict
  let commentsRaw ← pyIndex d "comments" >>= asList
  let comments ← commentsRaw.mapM Comment.from_dict
  return ⟨feature, comments⟩

/-- A single quote character, used by the diagnostic patterns. -/
def squote : Char := Char.ofNat 39

def sq : String := squote.toString

/-- Python `str.splitlines()` boundary characters. -/
def isLineBreak (c : Char) : Bool :=
  c == '\n' || c == '\r' || c == '\x0b' || c == '\x0c' ||
  c == '\x1c' || c == '\x1d' || c == '\x1e' || c == '\x85' ||
  c == '\u2028' || c == '\u2029'

def splitlinesAux : List Char → List Char → List String
  | [], acc => if acc.isEmpty then [] else [acc.reverse.asString]
  | '\r' :: '\n' :: rest, acc => acc.reverse.asString :: splitlinesAux rest []
  | c :: rest, acc =>
    if isLineBreak c then acc.reverse.asString :: splitlinesAux rest []
    else splitlinesAux rest (c :: acc)

/-- Python `str.splitlines()`. -/
def pySplitlines (s : String) : List String := splitlinesAux s.data []

/-- The closing part of every diagnostic pattern is a quote preceded by
arbitrary non-newline characters; `re` dot does not match a newline. -/
def scanQuote : List Char → Bool
  | [] => false
  | c :: rest => c == squote || (c != '\n' && scanQuote rest)

def gotOpen : List Char := ['g', 'o', 't', ' ', squote]

/-- Search for `got '` followed by the keyword and later a closing quote;
characters skipped on the way sit inside the middle dot-star of the
pattern, so they must not be newlines. -/
def scanGot (kw : List Char) : List Char → Bool
  | [] => false
  | c :: rest =>
    ((gotOpen ++ kw).isPrefixOf (c :: rest) &&
      scanQuote (List.drop (gotOpen.length + kw.length) (c :: rest))) ||
    (c != '\n' && scanGot kw rest)

def expectedLit : List Char := "expected:".data

/-- `re.search` of the pattern `expected:` dot-star `got` quote keyword
dot-star quote over one line. -/
def scanExpected (kw : List Char) : List Char → Bool
  | [] => false
  | c :: rest =>
    (expectedLit.isPrefixOf (c :: rest) &&
      scanGot kw (List.drop expectedLit.length (c :: rest))) ||
    scanExpected kw rest

def patSearch (kw : String) (line : String) : Bool := scanExpected kw.data line.data

/-- A pattern is a non-empty list of alternatives for the keyword slot
(the regex alternation); the whole pattern matches when one does. -/
def patLineMatch (kws : List String) (line : String) : Bool :=
  kws.any fun kw => patSearch kw line

/-- The exception classes of the `exceptions` module that the classifier
can raise, plus the generic fallback class. -/
inductive ExcClass where
  | FeatureError
  | BackgroundError
  | ScenarioError
  | StepError
  | RuleError
  | TokenError
  | GherkinParseError
deriving Repr, DecidableEq, Inhabited

def msgMultipleFeatures : String :=
  "Multiple features are not allowed in a single feature file."

def msgStepOutside : String :=
  "Step definition outside of a Scenario or a Background."

def msgBackground : String :=
  "Multiple " ++ sq ++ "Background" ++ sq ++ " sections detected. Only one " ++ sq ++
    "Background" ++ sq ++ " is allowed per feature."

def msgScenario : String :=
  "Misplaced or incorrect " ++ sq ++ "Scenario" ++ sq ++ " keyword. Ensure it" ++ sq ++
    "s correctly placed. There might be a missing Feature section."

def msgStep : String :=
  "Improper step keyword detected. Ensure correct order and indentation for steps (Given, When, Then, etc.)."

def msgRule : String :=
  "Misplaced or incorrectly formatted " ++ sq ++ "Rule" ++ sq ++
    ". Ensure it follows the feature structure."

def msgToken : String :=
  "Unexpected token found. Check Gherkin syntax near the reported error."

/-- The ordered rule list: (keyword alternatives of the regex, exception
class, fixed hint message), in source order. -/
def ERROR_PATTERNS : List (List String × ExcClass × String) :=
  [ (["Feature"], .FeatureError, msgMultipleFeatures),
    (["Given", "When", "Then", "And", "But"], .FeatureError, msgStepOutside),
    (["Background"], .BackgroundError, msgBackground),
    (["Scenario"], .ScenarioError, msgScenario),
    (["Given"], .StepError, msgStep),
    (["Rule"], .RuleError, msgRule),
    ([""], .TokenError, msgToken) ]

/-- One structured sub-error of the external composite failure. -/
structure GherkinError where
  message : String
  line : Int
deriving Repr, DecidableEq, Inhabited

/-- The external parser's composite failure: `args[0]` is the raw
multi-line diagnostic, `errors` the structured sub-errors. -/
structure CompositeParserException where
  arg0 : String
  errors : List GherkinError
deriving Repr, DecidableEq, Inhabited

/-- An exception raised by this layer, with the context it carries. -/
structure RaisedError where
  cls : ExcClass
  message : String
  line : Int
  line_content : String
  filename : String
  cause : Option CompositeParserException
deriving Repr, DecidableEq, Inhabited

/-- The inner loop of `handle_gherkin_parser_error`: try every pattern on
one diagnostic line, in order. -/
def matchPatterns (error_line : String) :
    List (List String × ExcClass × String) → Option (ExcClass × String)
  | [] => Option.none
  | (kws, cls, msg) :: rest =>
    if patLineMatch kws error_line then some (cls, msg) else matchPatterns error_line rest

/-- The outer loop of `handle_gherkin_parser_error`: advance through the
diagnostic lines, raising at the first line some pattern matches. -/
def scanErrorLines (line : Int) (line_content : String) (filename : String)
    (orig : Option CompositeParserException) : List String → Option RaisedError
  | [] => Option.none
  | l :: rest =>
    match matchPatterns l ERROR_PATTERNS with
    | some (cls, msg) => some ⟨cls, msg, line, line_content, filename, orig⟩
    | Option.none => scanErrorLines line line_content filename orig rest

/-- `handle_gherkin_parser_error`: the exception it raises, or `none` when
it falls through without raising. The raised exception is chained to
`original_exception` exactly when one was passed. -/
def handle_gherkin_parser_error (raw_error : String) (line : Int) (line_content : String)
    (filename : String) (original_exception : Option CompositeParserException) :
    Option RaisedError :=
  scanErrorLines line line_content filename original_exception (pySplitlines raw_error)

/-- Python `rstrip("\n")`: drop every trailing newline character. -/
def rstripNl (s : String) : String := ⟨(s.data.reverse.dropWhile (· == '\n')).reverse⟩

/-- The `except CompositeParserException` branch of `get_gherkin_document`:
which exception escapes, given the composite failure; `getline n` models
`linecache.getline(abs_filename, n)`. -/
def get_gherkin_document_onParseError (abs_filename : String) (getline : Int → String)
    (e : CompositeParserException) : Except String RaisedError :=
  match e.errors with
  | [] => .error "IndexError: list index out of range"
  | err0 :: _ =>
    let message := e.arg0
    let line := err0.line
    let line_content := rstripNl (getline err0.line)
    match handle_gherkin_parser_error message line line_content abs_filename (some e) with
    | some r => .ok r
    | Option.none =>
      .ok ⟨.GherkinParseError, "Unknown parsing error: " ++ message, line, line_content,
        abs_filename, some e⟩

/-- Specification-side classifier: the first (line, rule) pair in
line-major order whose pattern matches, written with library searches
instead of the source's loops. -/
def specFirstMatch (lines : List String) : Option (ExcClass × String) :=
  lines.findSome? fun l =>
    (ERROR_PATTERNS.find? fun p => patLineMatch p.1 l).map fun p => (p.2.1, p.2.2)

/-- The grid of cell values of a table, row for row and cell for cell. -/
def gridValues (t : DataTable) : List (List String) :=
  t.rows.map fun r => r.cells.map Cell.value

theorem getD_eq_dite (l : List α) (i : Nat) (d : α) :
    (if h : i < l.length then l.get ⟨i, h⟩ else d) = l.getD i d := by
  split
  · next h => simp [List.getD_eq_getElem?_getD, List.getElem?_eq_getElem h]
  · next h =>
      rw [List.getD_eq_getElem?_getD, List.getElem?_eq_none (Nat.le_of_not_lt h)]
      rfl

theorem getD_map_range {α : Type} {n i : Nat} (f : Nat → α) (d : α) (h : i < n) :
    ((List.range n).map f).getD i d = f i := by
  simp [List.getD_eq_getElem?_getD, List.getElem?_range h]

theorem getD_map_of_lt {α β : Type} (f : α → β) (l : List α) {j : Nat}
    (h : j < l.length) (d : β) : (l.map f).getD j d = f (l.get ⟨j, h⟩) := by
  simp [List.getD_eq_getElem?_getD, List.getElem?_eq_getElem h]

theorem getD_of_lt {α : Type} (l : List α) {j : Nat} (h : j < l.length) (d : α) :
    l.getD j d = l.get ⟨j, h⟩ := by
  simp [List.getD_eq_getElem?_getD, List.getElem?_eq_getElem h]

theorem foldl_max_const {xs : List Nat} {w : Nat} (hne : xs ≠ [])
    (h : ∀ x ∈ xs, x = w) : ∀ a, xs.foldl max a = max a w := by
  induction xs with
  | nil => cases hne rfl
  | cons x rest ih =>
    intro a
    by_cases hr : rest = []
    · subst hr
      simp [h x (by simp)]
    · simp only [List.foldl_cons]
      rw [ih hr (fun y hy => h y (by simp [hy])), h x (by simp), Nat.max_assoc, Nat.max_self]

theorem listMax_of_all_eq {xs : List Nat} {w : Nat} (hne : xs ≠ [])
    (h : ∀ x ∈ xs, x = w) : listMax xs = w := by
  rw [listMax, foldl_max_const hne h 0, Nat.max_eq_right (Nat.zero_le w)]

theorem transpose_def (t : DataTable) :
    t.transpose = if t.rows.isEmpty then t else
      ⟨t.location,
        (List.range (listMax ((t.rows.map Row.cells).map List.length))).map fun col_idx =>
          Row.mk (toString col_idx) t.location (transposeColumn (t.rows.map Row.cells) col_idx)⟩ :=
  rfl

theorem transposeColumn_eq_getD (rows : List Row) (i : Nat) :
    transposeColumn (rows.map Row.cells) i = rows.map fun r => r.cells.getD i emptyCell := by
  rw [transposeColumn, List.map_map]
  exact List.map_congr_left fun r _ => getD_eq_dite r.cells i emptyCell

theorem transpose_eq_of_ne_nil {t : DataTable} (h : t.rows ≠ []) :
    t.transpose = ⟨t.location,
      (List.range (listMax (t.rows.map fun r => r.cells.length))).map fun i =>
        Row.mk (toString i) t.location (t.rows.map fun r => r.cells.getD i emptyCell)⟩ := by
  rw [transpose_def, if_neg (by simpa [List.isEmpty_iff] using h)]
  have hlen : (t.rows.map Row.cells).map List.length = t.rows.map fun r => r.cells.length := by
    rw [List.map_map]
    rfl
  rw [hlen]
  refine congrArg (DataTable.mk t.location) (List.map_congr_left fun i _ => ?_)
  rw [transposeColumn_eq_getD]

/-- C1: on an empty row list `transpose` returns the input table itself;
otherwise it builds one output row per column index below the maximum cell
count, whose cells are each input row's cell at that index when it exists
and the synthetic empty cell at Position(0,0) otherwise, whose id is the
decimal string of the column index, and whose location is the table's own
location. -/
theorem C1_transpose_spec (t : DataTable) :
    (t.rows = [] → t.transpose = t) ∧
    (t.rows ≠ [] →
      t.transpose.location = t.location ∧
      t.transpose.rows.length = listMax (t.rows.map fun r => r.cells.length) ∧
      ∀ i, i < listMax (t.rows.map fun r => r.cells.length) →
        t.transpose.rows.getD i dummyRow =
          ⟨toString i, t.location, t.rows.map fun r => r.cells.getD i emptyCell⟩) := by
  constructor
  · intro h
    rw [transpose_def, if_pos (by simp [h])]
  · intro h
    rw [transpose_eq_of_ne_nil h]
    refine ⟨rfl, by simp, fun i hi => getD_map_range _ _ hi⟩

def c1Table : DataTable :=
  ⟨⟨3, 7⟩, [⟨"r0", ⟨1, 2⟩, [⟨⟨1, 2⟩, "a"⟩, ⟨⟨1, 5⟩, "b"⟩]⟩, ⟨"r1", ⟨2, 2⟩, [⟨⟨2, 2⟩, "c"⟩]⟩]⟩

/-- Witness for C1 at a concrete ragged two-row table. -/
theorem C1_transpose_spec_witness :
    c1Table.transpose.rows.getD 1 dummyRow =
      ⟨toString 1, c1Table.location, c1Table.rows.map fun r => r.cells.getD 1 emptyCell⟩ :=
  ((C1_transpose_spec c1Table).2 (by decide)).2.2 1 (by decide)

def c2Bad : DataTable := ⟨⟨1, 1⟩, [⟨"0", ⟨1, 1⟩, []⟩]⟩

/-- C2 counterexample: a rectangular table (its single row has zero cells,
so all rows have equal cell counts) whose double transpose does not restore
the grid of cell values — the first transpose produces no rows at all. -/
theorem C2_counterexample :
    (∀ r ∈ c2Bad.rows, r.cells.length = 0) ∧
    gridValues c2Bad.transpose.transpose ≠ gridValues c2Bad := by decide

/-- C2 (amended): double transpose restores the grid of cell values for
every rectangular table whose common row width is positive; a table whose
rows all have zero cells transposes to an empty row list and does not
round-trip. -/
theorem C2_transpose_transpose (t : DataTable) (w : Nat) (hw : 0 < w)
    (hrect : ∀ r ∈ t.rows, r.cells.length = w) :
    gridValues t.transpose.transpose = gridValues t := by
  by_cases hnil : t.rows = []
  · have h1 : t.transpose = t := by rw [transpose_def, if_pos (by simp [hnil])]
    rw [h1, h1]
  · have hmax1 : listMax (t.rows.map fun r => r.cells.length) = w := by
      refine listMax_of_all_eq (by simpa using hnil) ?_
      intro x hx
      obtain ⟨r, hr, rfl⟩ := List.mem_map.mp hx
      exact hrect r hr
    have h1 : t.transpose = ⟨t.location, (List.range w).map fun i =>
        Row.mk (toString i) t.location (t.rows.map fun r => r.cells.getD i emptyCell)⟩ := by
      rw [transpose_eq_of_ne_nil hnil, hmax1]
    have hnpos : 0 < t.rows.length := List.length_pos.mpr hnil
    rw [h1]
    set rows1 : List Row := (List.range w).map fun i =>
      Row.mk (toString i) t.location (t.rows.map fun r => r.cells.getD i emptyCell) with hrows1
    have hne1 : (DataTable.mk t.location rows1).rows ≠ [] := by
      simp only [hrows1]
      intro hcon
      have := congrArg List.length hcon
      simp at this
      omega
    have hmax2 : listMax ((DataTable.mk t.location rows1).rows.map
        fun r => r.cells.length) = t.rows.length := by
      refine listMax_of_all_eq (by simpa using hne1) ?_
      intro x hx
      obtain ⟨r, hr, rfl⟩ := List.mem_map.mp hx
      simp only [hrows1] at hr
      obtain ⟨i, _, rfl⟩ := List.mem_map.mp hr
      simp
    rw [transpose_eq_of_ne_nil hne1, hmax2]
    apply List.ext_getElem
    · simp [gridValues]
    · intro j h1len h2len
      have hj : j < t.rows.length := by
        simpa [gridValues] using h2len
      have hjw : t.rows[j].cells.length = w := hrect _ (t.rows.get_mem j hj)
      simp only [gridValues, List.getElem_map, List.getElem_range]
      dsimp only
      apply List.ext_getElem
      · simp [hrows1, hjw]
      · intro i hi1 hi2
        have hiw : i < w := by simpa [hrows1] using hi1
        simp only [hrows1, List.getElem_map, List.getElem_range]
        rw [getD_map_of_lt _ _ hj,
          getD_of_lt _ (by simp only [List.get_eq_getElem]; omega)]
        simp

def c2Table : DataTable :=
  ⟨⟨1, 1⟩, [⟨"0", ⟨2, 1⟩, [⟨⟨2, 1⟩, "a"⟩, ⟨⟨2, 4⟩, "b"⟩]⟩,
    ⟨"1", ⟨3, 1⟩, [⟨⟨3, 1⟩, "c"⟩, ⟨⟨3, 4⟩, "d"⟩]⟩]⟩

/-- Witness for the amended C2 at a concrete 2x2 table. -/
theorem C2_transpose_transpose_witness :
    gridValues c2Table.transpose.transpose = gridValues c2Table :=
  C2_transpose_transpose c2Table 2 (by decide) (by decide)

def indexErrMsg : String := "IndexError: list index out of range"

def shapeErrMsg : String :=
  "DataTable needs at least two rows: one for headers and one for values"

theorem dictComp_error_of_lt :
    ∀ (hs : List String) (cs : List (List String)) acc, cs.length < hs.length →
      dictComp acc hs cs = .error indexErrMsg
  | [], _, _, h => by simp at h
  | _ :: _, [], acc, _ => rfl
  | h :: hs, c :: cs, acc, hlt => by
    rw [dictComp]
    exact dictComp_error_of_lt hs cs _ (by simpa using hlt)

theorem dictComp_eq_foldl :
    ∀ (hs : List String) (cs : List (List String)) acc, hs.length ≤ cs.length →
      dictComp acc hs cs =
        .ok ((hs.zip cs).foldl (fun d p => pyDictInsert d p.1 p.2) acc)
  | [], _, _, _ => rfl
  | _ :: _, [], _, h => by simp at h
  | h :: hs, c :: cs, acc, hle => by
    rw [dictComp, List.zip_cons_cons, List.foldl_cons]
    exact dictComp_eq_foldl hs cs _ (by simpa using hle)

theorem minLen_lt_iff : ∀ (rows : List (List String)) (n : Nat), rows ≠ [] →
    (minLen rows < n ↔ ∃ r ∈ rows, r.length < n)
  | [], _, h => absurd rfl h
  | [r], n, _ => by simp [minLen]
  | r :: r2 :: rs, n, _ => by
    rw [minLen, min_lt_iff, minLen_lt_iff (r2 :: rs) n (by simp)]
    simp

theorem to_dict_def (t : DataTable) :
    t.to_dict = if t.rows.length < 2 then .error shapeErrMsg
      else dictComp [] ((t.rows.headD dummyRow).cells.map Cell.value)
        (zipStar ((t.rows.drop 1).map fun r => r.cells.map Cell.value)) := rfl

/-- C3: `to_dict` fails with the shape error when the table has fewer than
2 rows; with at least 2 rows it fails with the index fault when some data
row has fewer cells than the header row, and succeeds when every data row
has at least as many cells as the header row. -/
theorem C3_to_dict_errors (t : DataTable) :
    (t.rows.length < 2 → t.to_dict = .error shapeErrMsg) ∧
    (2 ≤ t.rows.length →
      ((∃ r ∈ t.rows.drop 1, r.cells.length < (t.rows.headD dummyRow).cells.length) →
        t.to_dict = .error indexErrMsg) ∧
      ((∀ r ∈ t.rows.drop 1, (t.rows.headD dummyRow).cells.length ≤ r.cells.length) →
        ∃ d, t.to_dict = .ok d)) := by
  constructor
  · intro h
    rw [to_dict_def, if_pos h]
  · intro h2
    rw [to_dict_def, if_neg (by omega)]
    set vrows := (t.rows.drop 1).map (fun r => r.cells.map Cell.value) with hvrows
    have hvne : vrows ≠ [] := by
      rw [hvrows]
      intro hc
      have := congrArg List.length hc
      simp at this
      omega
    have hzlen : (zipStar vrows).length = minLen vrows := by
      rcases hv : vrows with _ | ⟨a, l⟩
      · exact absurd hv hvne
      · simp [zipStar]
    constructor
    · rintro ⟨r, hr, hlt⟩
      apply dictComp_error_of_lt
      rw [hzlen]
      rw [minLen_lt_iff _ _ hvne]
      refine ⟨r.cells.map Cell.value, ?_, by simpa using hlt⟩
      rw [hvrows]
      exact List.mem_map_of_mem _ hr
    · intro hall
      refine ⟨_, dictComp_eq_foldl _ _ _ ?_⟩
      rw [hzlen]
      refine Nat.le_of_not_lt fun hlt => ?_
      obtain ⟨x, hx, hxlt⟩ := (minLen_lt_iff _ _ hvne).mp hlt
      rw [hvrows] at hx
      obtain ⟨r, hr, rfl⟩ := List.mem_map.mp hx
      have := hall r hr
      simp only [List.length_map] at hxlt
      omega

def c3Short : DataTable :=
  ⟨⟨1, 1⟩, [⟨"0", ⟨1, 1⟩, [⟨⟨1, 1⟩, "a"⟩, ⟨⟨1, 4⟩, "b"⟩]⟩,
    ⟨"1", ⟨2, 1⟩, [⟨⟨2, 1⟩, "x"⟩]⟩]⟩

/-- Witness for C3: the shape error on a one-row table and the index fault
on a table whose data row is shorter than its header row. -/
theorem C3_to_dict_errors_witness :
    (DataTable.mk ⟨1, 1⟩ [dummyRow]).to_dict = .error shapeErrMsg ∧
    c3Short.to_dict = .error indexErrMsg :=
  ⟨(C3_to_dict_errors ⟨⟨1, 1⟩, [dummyRow]⟩).1 (by decide),
    ((C3_to_dict_errors c3Short).2 (by decide)).1
      ⟨⟨"1", ⟨2, 1⟩, [⟨⟨2, 1⟩, "x"⟩]⟩, by decide, by decide⟩⟩

/-- The header values of a table: row 0's cell values in order. -/
def headerVals (t : DataTable) : List String :=
  (t.rows.headD dummyRow).cells.map Cell.value

/-- Column `j` of the data rows: the ordered `j`-th cell values of rows
1..N (with `""` past a row's end, unused on rectangular tables). -/
def colVals (t : DataTable) (j : Nat) : List String :=
  (t.rows.drop 1).map fun r => (r.cells.map Cell.value).getD j ""

theorem pyLookup_append (d e : List (String × List String)) (k : String) :
    pyLookup (d ++ e) k = (pyLookup d k).or (pyLookup e k) := by
  induction d with
  | nil => simp [pyLookup]
  | cons p d ih =>
    by_cases hp : p.1 = k
    · simp [pyLookup, hp]
    · simp [pyLookup, hp, ih]

theorem pyLookup_map_replace_ne (d : List (String × List String)) {k k' : String}
    (v : List String) (h : k' ≠ k) :
    pyLookup (d.map fun p => if p.1 == k then (k, v) else p) k' = pyLookup d k' := by
  induction d with
  | nil => rfl
  | cons p d ih =>
    simp only [List.map_cons, beq_iff_eq] at ih ⊢
    by_cases hp : p.1 = k
    · simp [pyLookup, hp, Ne.symm h, ih]
    · simp [pyLookup, hp, ih]

theorem pyLookup_map_replace_eq (d : List (String × List String)) {k : String}
    (v : List String) (h : d.any (fun p => p.1 == k) = true) :
    pyLookup (d.map fun p => if p.1 == k then (k, v) else p) k = some v := by
  induction d with
  | nil => simp at h
  | cons p d ih =>
    simp only [List.map_cons, beq_iff_eq] at ih ⊢
    by_cases hp : p.1 = k
    · simp [pyLookup, hp]
    · simp only [List.any_cons, Bool.or_eq_true, beq_iff_eq, hp, false_or] at h
      simp [pyLookup, hp, ih h]

theorem pyLookup_none_of_any_false (d : List (String × List String)) {k : String}
    (h : d.any (fun p => p.1 == k) = false) : pyLookup d k = Option.none := by
  induction d with
  | nil => rfl
  | cons p d ih =>
    simp only [List.any_cons, Bool.or_eq_false_iff, beq_eq_false_iff_ne] at h
    simp [pyLookup, h.1, ih (by simpa using h.2)]

theorem pyLookup_insert (d : List (String × List String)) (k k' : String)
    (v : List String) :
    pyLookup (pyDictInsert d k v) k' = if k' = k then some v else pyLookup d k' := by
  rw [pyDictInsert]
  split
  · next hany =>
    by_cases hk : k' = k
    · subst hk
      rw [if_pos rfl, pyLookup_map_replace_eq d v hany]
    · rw [if_neg hk, pyLookup_map_replace_ne d v hk]
  · next hany =>
    have h0 : pyLookup d k = Option.none :=
      pyLookup_none_of_any_false d (Bool.eq_false_iff.mpr hany)
    rw [pyLookup_append]
    by_cases hk : k' = k
    · subst hk
      simp [h0, pyLookup]
    · rw [if_neg hk]
      simp only [pyLookup, if_neg (fun hc : k = k' => hk hc.symm)]
      cases pyLookup d k' <;> rfl

theorem pyLookup_foldl_insert (ps : List (String × List String)) :
    ∀ (acc : List (String × List String)) (k : String),
      pyLookup (ps.foldl (fun d p => pyDictInsert d p.1 p.2) acc) k =
        (pyLookup ps.reverse k).or (pyLookup acc k) := by
  induction ps with
  | nil => simp [pyLookup]
  | cons p ps ih =>
    intro acc k
    rw [List.foldl_cons, ih, List.reverse_cons, pyLookup_append, pyLookup_insert]
    by_cases hk : p.1 = k
    · cases hrev : pyLookup ps.reverse k <;> simp [pyLookup, hk.symm, hrev]
    · cases hrev : pyLookup ps.reverse k <;>
        simp [pyLookup, hk, (show k ≠ p.1 from fun hc => hk hc.symm), hrev]

theorem pyLookup_reverse_last (ps : List (String × List String)) :
    ∀ (j : Nat) (hj : j < ps.length),
      (∀ j' (_ : j < j') (hj' : j' < ps.length), (ps[j']).1 ≠ (ps[j]).1) →
      pyLookup ps.reverse (ps[j]).1 = some (ps[j]).2 := by
  induction ps using List.reverseRecOn with
  | nil =>
    intro j hj
    simp at hj
  | append_singleton qs q ih =>
    intro j hj hlast
    rw [List.reverse_append, List.reverse_singleton]
    by_cases hq : j = qs.length
    · have hget : (qs ++ [q])[j] = q := List.getElem_concat_length qs q j hq hj
      rw [hget]
      simp [pyLookup]
    · have hjq : j < qs.length := by
        simp only [List.length_append, List.length_singleton] at hj
        omega
      have hget : (qs ++ [q])[j] = qs[j] := List.getElem_append_left hjq
      have hqlt : qs.length < (qs ++ [q]).length := by simp
      have hqne : q.1 ≠ (qs[j]).1 := by
        have := hlast qs.length (by omega) hqlt
        rw [List.getElem_concat_length qs q qs.length rfl hqlt, hget] at this
        exact this
      rw [hget]
      simp only [List.cons_append, List.nil_append, pyLookup, hqne, if_false]
      refine ih j hjq ?_
      intro j' hjj' hj'
      have hj'a : j' < (qs ++ [q]).length := by
        simp only [List.length_append, List.length_singleton]
        omega
      have h1 : (qs ++ [q])[j'] = qs[j'] := List.getElem_append_left hj'
      have := hlast j' hjj' hj'a
      rw [h1, hget] at this
      exact this

theorem pyLookup_none_of_all_ne {ps : List (String × List String)} {k : String}
    (h : ∀ p ∈ ps, p.1 ≠ k) : pyLookup ps k = Option.none := by
  induction ps with
  | nil => rfl
  | cons p ps ih =>
    simp only [pyLookup, h p (List.mem_cons_self p ps), if_false]
    exact ih fun p' hp' => h p' (List.mem_cons_of_mem p hp')

theorem minLen_of_all_eq : ∀ (rows : List (List String)) (w : Nat), rows ≠ [] →
    (∀ r ∈ rows, r.length = w) → minLen rows = w
  | [], _, h, _ => absurd rfl h
  | [r], w, _, h => by simp [minLen, h r (by simp)]
  | r :: r2 :: rs, w, _, h => by
    rw [minLen, minLen_of_all_eq (r2 :: rs) w (by simp)
      (fun x hx => h x (List.mem_cons_of_mem r hx)), h r (by simp), Nat.min_self]

theorem headD_mem {l : List Row} (h : l ≠ []) (d : Row) : l.headD d ∈ l := by
  cases l with
  | nil => exact absurd rfl h
  | cons r rest => exact List.mem_cons_self r rest

theorem getD_eq_getElem_of_lt {α : Type} (l : List α) {j : Nat} (h : j < l.length)
    (d : α) : l.getD j d = l[j] := by
  simp [List.getD_eq_getElem?_getD, List.getElem?_eq_getElem h]

theorem zipStar_of_ne_nil {rows : List (List String)} (h : rows ≠ []) :
    zipStar rows =
      (List.range (minLen rows)).map fun i => rows.map (fun r => r.getD i "") := by
  rcases rows with _ | ⟨a, l⟩
  · exact absurd rfl h
  · rfl

theorem zipStar_getElem {rows : List (List String)} (hne : rows ≠ []) {j w : Nat}
    (hmin : minLen rows = w) (hj : j < w) (hjj : j < (zipStar rows).length) :
    (zipStar rows)[j] = rows.map (fun r => r.getD j "") := by
  have h1 : (zipStar rows)[j]? = some (rows.map fun r => r.getD j "") := by
    rw [zipStar_of_ne_nil hne, hmin]
    simp [List.getElem?_range hj]
  rw [List.getElem?_eq_getElem hjj] at h1
  exact Option.some.inj h1

theorem dict_core (hs : List String) (cs : List (List String))
    (hlen : hs.length = cs.length) :
    ∃ d, dictComp [] hs cs = .ok d ∧
      (∀ j (hj : j < hs.length),
        (∀ j' (_ : j < j') (hj' : j' < hs.length), hs[j'] ≠ hs[j]) →
        pyLookup d hs[j] = some cs[j]) ∧
      (∀ k, (∀ j (hj : j < hs.length), hs[j] ≠ k) → pyLookup d k = Option.none) := by
  refine ⟨_, dictComp_eq_foldl hs cs [] (by omega), ?_, ?_⟩
  · intro j hj hlast
    rw [pyLookup_foldl_insert]
    have hzlen : (hs.zip cs).length = hs.length := by
      rw [List.length_zip]
      omega
    have hjz : j < (hs.zip cs).length := by omega
    have hzj : (hs.zip cs)[j] = (hs[j], cs[j]) := List.getElem_zip
    have hfin := pyLookup_reverse_last (hs.zip cs) j hjz ?_
    · rw [hzj] at hfin
      rw [hfin]
      rfl
    · intro j' hlt hj'
      have hz1 : (hs.zip cs)[j'] = (hs[j'], cs[j']) := List.getElem_zip
      rw [hz1, hzj]
      exact hlast j' hlt (by omega)
  · intro k hk
    rw [pyLookup_foldl_insert]
    have h1 : pyLookup (hs.zip cs).reverse k = Option.none := by
      refine pyLookup_none_of_all_ne ?_
      rintro ⟨a, b⟩ hp
      rw [List.mem_reverse] at hp
      have ha : a ∈ hs := (List.of_mem_zip hp).1
      obtain ⟨j, hj, rfl⟩ := List.mem_iff_getElem.mp ha
      exact hk j hj
    rw [h1]
    rfl

def c4Table : DataTable :=
  ⟨⟨10, 1⟩, [⟨"0", ⟨1, 1⟩, [⟨⟨1, 3⟩, "a"⟩, ⟨⟨1, 7⟩, "b"⟩]⟩,
    ⟨"1", ⟨2, 1⟩, [⟨⟨2, 3⟩, "1"⟩, ⟨⟨2, 7⟩, "2"⟩]⟩]⟩

/-- C4: on a rectangular table with at least 2 rows `to_dict` succeeds and
maps each header value to its column's values over the data rows in order;
a header value occurring in several columns is mapped to the latest such
column, and keys outside the header values are absent. In particular the
table with header values ["a","b"] and the data row ["1","2"] yields
the dict [("a",["1"]), ("b",["2"])]. -/
theorem C4_to_dict_mapping :
    (∀ (t : DataTable) (w : Nat), 2 ≤ t.rows.length →
      (∀ r ∈ t.rows, r.cells.length = w) →
      ∃ d, t.to_dict = .ok d ∧
        (∀ j, j < w →
          (∀ j', j < j' → j' < w →
            (headerVals t).getD j' "" ≠ (headerVals t).getD j "") →
          pyLookup d ((headerVals t).getD j "") = some (colVals t j)) ∧
        (∀ k, (∀ j, j < w → (headerVals t).getD j "" ≠ k) →
          pyLookup d k = Option.none)) ∧
    c4Table.to_dict = .ok [("a", ["1"]), ("b", ["2"])] := by
  constructor
  · intro t w h2 hrect
    have hne : t.rows ≠ [] := by
      intro hc
      rw [hc] at h2
      simp at h2
    have hhlen : (headerVals t).length = w := by
      rw [headerVals, List.length_map]
      exact hrect _ (headD_mem hne dummyRow)
    have hvne : (t.rows.drop 1).map (fun r => r.cells.map Cell.value) ≠ [] := by
      intro hc
      have := congrArg List.length hc
      simp at this
      omega
    have hminw : minLen ((t.rows.drop 1).map fun r => r.cells.map Cell.value) = w := by
      refine minLen_of_all_eq _ _ hvne ?_
      intro x hx
      obtain ⟨r, hr, rfl⟩ := List.mem_map.mp hx
      rw [List.length_map]
      exact hrect r (List.mem_of_mem_drop hr)
    have hzslen :
        (zipStar ((t.rows.drop 1).map fun r => r.cells.map Cell.value)).length = w := by
      rw [zipStar_of_ne_nil hvne, hminw]
      simp
    obtain ⟨d, hd, hlook, hnone⟩ :=
      dict_core (headerVals t)
        (zipStar ((t.rows.drop 1).map fun r => r.cells.map Cell.value))
        (by rw [hhlen, hzslen])
    refine ⟨d, ?_, ?_, ?_⟩
    · rw [to_dict_def, if_neg (by omega)]
      exact hd
    · intro j hjw hnodup
      have hj : j < (headerVals t).length := by
        rw [hhlen]
        exact hjw
      rw [getD_eq_getElem_of_lt _ hj]
      have hres := hlook j hj ?_
      · rw [hres]
        have hcsj :
            (zipStar ((t.rows.drop 1).map fun r => r.cells.map Cell.value))[j] =
              colVals t j := by
          rw [zipStar_getElem hvne hminw hjw (by rw [hzslen]; exact hjw)]
          rw [colVals, List.map_map]
          rfl
        rw [hcsj]
      · intro j' hlt hj'
        have h1 := hnodup j' hlt (by omega)
        rwa [getD_eq_getElem_of_lt _ hj', getD_eq_getElem_of_lt _ hj] at h1
    · intro k hk
      refine hnone k ?_
      intro j hj
      have h1 := hk j (by omega)
      rwa [getD_eq_getElem_of_lt _ hj] at h1
  · rfl

/-- Witness for the general part of C4 at the concrete 2x2 table. -/
theorem C4_to_dict_mapping_witness :
    ∃ d, c4Table.to_dict = .ok d ∧
      (∀ j, j < 2 →
        (∀ j', j < j' → j' < 2 →
          (headerVals c4Table).getD j' "" ≠ (headerVals c4Table).getD j "") →
        pyLookup d ((headerVals c4Table).getD j "") = some (colVals c4Table j)) ∧
      (∀ k, (∀ j, j < 2 → (headerVals c4Table).getD j "" ≠ k) →
        pyLookup d k = Option.none) :=
  C4_to_dict_mapping.1 c4Table 2 (by decide) (by decide)

theorem matchPatterns_eq_find (l : String) (L : List (List String × ExcClass × String)) :
    matchPatterns l L =
      (L.find? fun p => patLineMatch p.1 l).map fun p => (p.2.1, p.2.2) := by
  induction L with
  | nil => rfl
  | cons p L ih =>
    obtain ⟨kws, cls, msg⟩ := p
    by_cases h : patLineMatch kws l
    · simp [matchPatterns, List.find?_cons, h]
    · simp [matchPatterns, List.find?_cons, h, ih]

theorem scanErrorLines_eq (line : Int) (lc fn : String)
    (orig : Option CompositeParserException) (ls : List String) :
    scanErrorLines line lc fn orig ls =
      (ls.findSome? fun l =>
          (ERROR_PATTERNS.find? fun p => patLineMatch p.1 l).map fun p => (p.2.1, p.2.2)).map
        fun pr => ⟨pr.1, pr.2, line, lc, fn, orig⟩ := by
  induction ls with
  | nil => rfl
  | cons l ls ih =>
    rw [scanErrorLines, List.findSome?_cons, ← matchPatterns_eq_find]
    cases hm : matchPatterns l ERROR_PATTERNS with
    | none => rw [ih]
    | some pr => rfl

/-- C5: the classifier splits the diagnostic into lines and scans every
pattern of the ordered rule list on a line before advancing to the next
line; it raises, for the first matching (line, rule) pair, the rule's
exception class with the rule's fixed message, the given line number,
the given literal source line, the source identifier, and the original
exception as its cause — and raises nothing when no pair matches. -/
theorem C5_first_match_raises (raw : String) (line : Int) (lc fn : String)
    (e : CompositeParserException) :
    handle_gherkin_parser_error raw line lc fn (some e) =
      (specFirstMatch (pySplitlines raw)).map fun pr =>
        ⟨pr.1, pr.2, line, lc, fn, some e⟩ := by
  rw [handle_gherkin_parser_error, specFirstMatch, scanErrorLines_eq]

theorem given_alt_match (l : String)
    (h : patLineMatch ["Given"] l = true) :
    patLineMatch ["Given", "When", "Then", "And", "But"] l = true := by
  simp only [patLineMatch, List.any_cons, List.any_nil, Bool.or_false,
    Bool.or_eq_true] at h ⊢
  exact Or.inl h

theorem matchPatterns_ne_step (l : String) (cls : ExcClass) (msg : String)
    (h : matchPatterns l ERROR_PATTERNS = some (cls, msg)) :
    cls ≠ ExcClass.StepError := by
  have hmono := given_alt_match l
  rw [ERROR_PATTERNS] at h
  simp only [matchPatterns] at h
  by_cases h1 : patLineMatch ["Feature"] l = true
  · rw [if_pos h1] at h
    cases h
    decide
  · rw [if_neg h1] at h
    by_cases h2 : patLineMatch ["Given", "When", "Then", "And", "But"] l = true
    · rw [if_pos h2] at h
      cases h
      decide
    · rw [if_neg h2] at h
      by_cases h3 : patLineMatch ["Background"] l = true
      · rw [if_pos h3] at h
        cases h
        decide
      · rw [if_neg h3] at h
        by_cases h4 : patLineMatch ["Scenario"] l = true
        · rw [if_pos h4] at h
          cases h
          decide
        · rw [if_neg h4] at h
          by_cases h5 : patLineMatch ["Given"] l = true
          · exact absurd (hmono h5) h2
          · rw [if_neg h5] at h
            by_cases h6 : patLineMatch ["Rule"] l = true
            · rw [if_pos h6] at h
              cases h
              decide
            · rw [if_neg h6] at h
              by_cases h7 : patLineMatch [""] l = true
              · rw [if_pos h7] at h
                cases h
                decide
              · rw [if_neg h7] at h
                cases h

/-- C9: the classifier never raises StepError: every line matching the
step-structure pattern also matches the earlier step-outside-scenario
pattern, whose alternation contains the same keyword, so the earlier rule
always wins. -/
theorem C9_step_rule_unreachable (raw : String) (line : Int) (lc fn : String)
    (orig : Option CompositeParserException) (r : RaisedError)
    (h : handle_gherkin_parser_error raw line lc fn orig = some r) :
    r.cls ≠ ExcClass.StepError := by
  rw [handle_gherkin_parser_error] at h
  generalize pySplitlines raw = ls at h
  revert h
  induction ls with
  | nil =>
    intro h
    cases h
  | cons l ls ih =>
    intro h
    rw [scanErrorLines] at h
    cases hm : matchPatterns l ERROR_PATTERNS with
    | none =>
      rw [hm] at h
      exact ih h
    | some pr =>
      obtain ⟨cls, msg⟩ := pr
      rw [hm] at h
      cases h
      exact matchPatterns_ne_step l cls msg hm

def c9Raw : String := "expected: A, got " ++ sq ++ "Given x" ++ sq

/-- Witness for C9 at a diagnostic whose line matches both the
step-outside-scenario pattern and the step-structure pattern. -/
theorem C9_step_rule_unreachable_witness :
    (⟨ExcClass.FeatureError, msgStepOutside, 1, "lc", "f", Option.none⟩ :
      RaisedError).cls ≠ ExcClass.StepError :=
  C9_step_rule_unreachable c9Raw 1 "lc" "f" Option.none
    ⟨ExcClass.FeatureError, msgStepOutside, 1, "lc", "f", Option.none⟩ (by decide)

theorem scanErrorLines_eq_none (line : Int) (lc fn : String)
    (orig : Option CompositeParserException) (ls : List String)
    (h : ∀ l ∈ ls, matchPatterns l ERROR_PATTERNS = Option.none) :
    scanErrorLines line lc fn orig ls = Option.none := by
  induction ls with
  | nil => rfl
  | cons l ls ih =>
    rw [scanErrorLines, h l (List.mem_cons_self l ls)]
    exact ih fun l' hl' => h l' (List.mem_cons_of_mem l hl')

/-- C6: when no diagnostic line matches any classifier rule, the loader's
error branch yields the generic category-less parse error wrapping the
original message, the first sub-error's line, the literal source line and
the path, chained to the original composite failure — and the classifier
itself raises nothing. -/
theorem C6_generic_fallback (fn : String) (getline : Int → String)
    (e : CompositeParserException) (err0 : GherkinError)
    (rest : List GherkinError) (herr : e.errors = err0 :: rest)
    (hnomatch : ∀ l ∈ pySplitlines e.arg0, ∀ p ∈ ERROR_PATTERNS,
      patLineMatch p.1 l = false) :
    handle_gherkin_parser_error e.arg0 err0.line (rstripNl (getline err0.line)) fn
      (some e) = Option.none ∧
    get_gherkin_document_onParseError fn getline e =
      .ok ⟨ExcClass.GherkinParseError, "Unknown parsing error: " ++ e.arg0, err0.line,
        rstripNl (getline err0.line), fn, some e⟩ := by
  have hnone : ∀ l ∈ pySplitlines e.arg0,
      matchPatterns l ERROR_PATTERNS = Option.none := by
    intro l hl
    rw [matchPatterns_eq_find]
    rw [List.find?_eq_none.mpr fun p hp => by simp [hnomatch l hl p hp]]
    rfl
  have hh : handle_gherkin_parser_error e.arg0 err0.line
      (rstripNl (getline err0.line)) fn (some e) = Option.none := by
    rw [handle_gherkin_parser_error]
    exact scanErrorLines_eq_none _ _ _ _ _ hnone
  refine ⟨hh, ?_⟩
  obtain ⟨a0, errs⟩ := e
  simp only at herr
  subst herr
  rw [get_gherkin_document_onParseError]
  simp only
  rw [hh]

def c6Exc : CompositeParserException := ⟨"something odd happened", [⟨"sub", 3⟩]⟩

/-- Witness for C6 at a diagnostic no rule matches. -/
theorem C6_generic_fallback_witness :
    get_gherkin_document_onParseError "t.feature" (fun _ => "line three") c6Exc =
      .ok ⟨ExcClass.GherkinParseError, "Unknown parsing error: " ++ c6Exc.arg0, 3,
        rstripNl "line three", "t.feature", some c6Exc⟩ :=
  (C6_generic_fallback "t.feature" (fun _ => "line three") c6Exc ⟨"sub", 3⟩ []
    (by decide) (by decide)).2

def c7Entries : List (String × PyVal) :=
  [("location", .dict [("column", .int 1), ("line", .int 2)])]

/-- C7 counterexample: a raw map lacking the "rows" key on which
`DataTable.from_dict` succeeds (with an empty row list) instead of failing
with a missing-field error. -/
theorem C7_counterexample :
    pyGet c7Entries "rows" = Option.none ∧
    DataTable.from_dict (.dict c7Entries) = .ok ⟨⟨1, 2⟩, []⟩ :=
  ⟨rfl, rfl⟩

/-- C7 (amended): `DataTable.from_dict` fails with a missing-field error
when the required "location" key is absent, but an absent "rows" key is
not an error: it defaults to an empty row list. -/
theorem C7_required_fields (d : List (String × PyVal)) :
    (pyGet d "location" = Option.none →
      DataTable.from_dict (.dict d) = .error (keyErr "location")) ∧
    (∀ (lv : PyVal) (loc : Location), pyGet d "location" = some lv →
      Location.from_dict lv = .ok loc → pyGet d "rows" = Option.none →
      DataTable.from_dict (.dict d) = .ok ⟨loc, []⟩) := by
  constructor
  · intro h
    simp only [DataTable.from_dict, asDict, Bind.bind, Except.bind, pyIndex, h]
  · intro lv loc hl hloc hr
    simp only [DataTable.from_dict, asDict, Bind.bind, Except.bind, pyIndex, hl,
      hloc, hr, List.mapM, List.mapM.loop, Functor.map, Except.map, List.reverse_nil,
      pure, Except.pure]

/-- Witness for the amended C7: the empty raw map fails on "location", and
a map holding only a location succeeds with no rows. -/
theorem C7_required_fields_witness :
    DataTable.from_dict (.dict []) = .error (keyErr "location") ∧
    DataTable.from_dict (.dict c7Entries) = .ok ⟨⟨1, 2⟩, []⟩ :=
  ⟨(C7_required_fields []).1 rfl,
    (C7_required_fields c7Entries).2 (.dict [("column", .int 1), ("line", .int 2)])
      ⟨1, 2⟩ rfl rfl rfl⟩

theorem toRaw_data (l : List Char) :
    List.foldr (fun c acc => if c = '\\' then '\\' :: '\\' :: acc else c :: acc) [] l =
      l.flatMap fun c => if c = '\\' then ['\\', '\\'] else [c] := by
  induction l with
  | nil => rfl
  | cons c cs ih =>
    by_cases hc : c = '\\'
    · simp [hc, ih]
    · simp [hc, ih]

/-- C8: the Cell built from a raw map stores the raw value with every
backslash doubled: the stored character list is the raw one with each
backslash replaced by two backslashes. -/
theorem C8_cell_backslashes (d : List (String × PyVal)) (lv : PyVal) (loc : Location)
    (v : String) (hl : pyGet d "location" = some lv)
    (hloc : Location.from_dict lv = .ok loc) (hv : pyGet d "value" = some (.str v)) :
    Cell.from_dict (.dict d) = .ok ⟨loc, _to_raw_string v⟩ ∧
    (_to_raw_string v).data =
      v.data.flatMap fun c => if c = '\\' then ['\\', '\\'] else [c] := by
  constructor
  · simp only [Cell.from_dict, asDict, Bind.bind, Except.bind, pyIndex, hl, hloc,
      hv, asStr, pure, Except.pure]
  · exact toRaw_data v.data

def c8Entries : List (String × PyVal) :=
  [("location", .dict [("column", .int 4), ("line", .int 9)]),
   ("value", .str "a\\b")]

/-- Witness for C8: a raw value with a single backslash is stored with two
backslashes. -/
theorem C8_cell_backslashes_witness :
    Cell.from_dict (.dict c8Entries) = .ok ⟨⟨4, 9⟩, _to_raw_string "a\\b"⟩ ∧
    (_to_raw_string "a\\b").data =
      ("a\\b".data.flatMap fun c => if c = '\\' then ['\\', '\\'] else [c]) :=
  C8_cell_backslashes c8Entries (.dict [("column", .int 4), ("line", .int 9)])
    ⟨4, 9⟩ "a\\b" rfl rfl rfl

def c10Bad : List (String × PyVal) := [("background", .dict [("bogus", .int 1)])]

/-- C10 counterexample: a raw map whose "background" value is truthy but
malformed; `Child.from_dict` fails with the nested missing-field error
instead of succeeding. -/
theorem C10_counterexample :
    Child.from_dict (.dict c10Bad) = .error (keyErr "id") := by
  rw [Child.from_dict]
  rfl

theorem Child_from_dict_dict (d : List (String × PyVal)) :
    Child.from_dict (.dict d) = do
      let background ← match pyGet d "background" with
        | some v => if truthy v then some <$> Background.from_dict v else pure Option.none
        | Option.none => pure Option.none
      let rule ← match pyGet d "rule" with
        | some v => if truthy v then some <$> Rule.from_dict v else pure Option.none
        | Option.none => pure Option.none
      let scenario ← match pyGet d "scenario" with
        | some v => if truthy v then some <$> Scenario.from_dict v else pure Option.none
        | Option.none => pure Option.none
      return Child.mk background rule scenario := by
  rw [Child.from_dict]
  cases hc : pyGet d "rule" with
  | none => rfl
  | some v => rfl

/-- The spec-side description of one Child field's resolution: absent key
or falsy value leaves the field empty, a present truthy value populates it
with its own build's result. -/
def childFieldSpec {α : Type} (f : PyVal → Except String α)
    (d : List (String × PyVal)) (k : String) (o : Option α) : Prop :=
  (pyGet d k = Option.none ∧ o = Option.none) ∨
  (∃ v, pyGet d k = some v ∧ truthy v = false ∧ o = Option.none) ∨
  (∃ v a, pyGet d k = some v ∧ truthy v = true ∧ f v = .ok a ∧ o = some a)

/-- C10 (amended): `Child.from_dict` performs no exclusivity validation:
it materializes the background, rule and scenario fields independently —
each field is populated exactly when its key is present, truthy and its
value buildable, and is left empty when its key is absent or its value
falsy — and it succeeds whenever every present-and-truthy value is itself
buildable, for any combination of zero, one, two or all three fields. -/
theorem C10_no_exclusivity (d : List (String × PyVal)) (b? : Option Background)
    (r? : Option Rule) (s? : Option Scenario)
    (hb : childFieldSpec Background.from_dict d "background" b?)
    (hr : childFieldSpec Rule.from_dict d "rule" r?)
    (hs : childFieldSpec Scenario.from_dict d "scenario" s?) :
    Child.from_dict (.dict d) = .ok (Child.mk b? r? s?) := by
  rw [Child_from_dict_dict]
  rcases hb with ⟨h1, rfl⟩ | ⟨v1, h1, h2, rfl⟩ | ⟨v1, a1, h1, h2, h3, rfl⟩ <;>
    rcases hr with ⟨g1, rfl⟩ | ⟨v2, g1, g2, rfl⟩ | ⟨v2, a2, g1, g2, g3, rfl⟩ <;>
      rcases hs with ⟨f1, rfl⟩ | ⟨v3, f1, f2, rfl⟩ | ⟨v3, a3, f1, f2, f3, rfl⟩ <;>
        simp_all [Bind.bind, Except.bind, pure, Except.pure, Functor.map, Except.map]

def bgRaw : PyVal :=
  .dict [("id", .str "b1"), ("keyword", .str "Background"),
    ("location", .dict [("column", .int 1), ("line", .int 3)]),
    ("name", .str "bg"), ("description", .str ""), ("steps", .list [])]

def ruleRaw : PyVal :=
  .dict [("id", .str "r1"), ("keyword", .str "Rule"),
    ("location", .dict [("column", .int 1), ("line", .int 4)]),
    ("name", .str "ru"), ("description", .str ""), ("tags", .list []),
    ("children", .list [])]

def scRaw : PyVal :=
  .dict [("id", .str "s1"), ("keyword", .str "Scenario"),
    ("location", .dict [("column", .int 1), ("line", .int 5)]),
    ("name", .str "sc"), ("description", .str ""), ("steps", .list []),
    ("tags", .list []), ("examples", .list [])]

def c10AllThree : List (String × PyVal) :=
  [("background", bgRaw), ("rule", ruleRaw), ("scenario", scRaw)]

def c10TwoOfThree : List (String × PyVal) :=
  [("background", bgRaw), ("scenario", scRaw)]

def c10FalsyRule : List (String × PyVal) :=
  [("background", bgRaw), ("rule", PyVal.none), ("scenario", scRaw)]

def bgBuilt : Background := ⟨"b1", "Background", ⟨1, 3⟩, "bg", "", []⟩

def ruleBuilt : Rule := Rule.mk "r1" "Rule" ⟨1, 4⟩ "ru" "" [] []

def scBuilt : Scenario := ⟨"s1", "Scenario", ⟨1, 5⟩, "sc", "", [], [], []⟩

theorem ruleRaw_builds :
    Rule.from_dict ruleRaw = .ok (Rule.mk "r1" "Rule" ⟨1, 4⟩ "ru" "" [] []) := by
  have h1 : childrenFromList [] = Except.ok [] := by rw [childrenFromList]
  simp [ruleRaw, Rule.from_dict, pyIndex, pyGet, asStr, asList, asDict, asInt,
    Location.from_dict, Tag.from_dict, Bind.bind, Except.bind, pure, Except.pure,
    Functor.map, Except.map, List.mapM, List.mapM.loop, h1]

/-- Witness for C10: all three fields populated simultaneously; two of
three populated with the rule key absent; a present but falsy rule value
left empty; and the empty raw map with every field empty. -/
theorem C10_no_exclusivity_witness :
    Child.from_dict (.dict c10AllThree) =
      .ok (Child.mk (some bgBuilt) (some ruleBuilt) (some scBuilt)) ∧
    Child.from_dict (.dict c10TwoOfThree) =
      .ok (Child.mk (some bgBuilt) Option.none (some scBuilt)) ∧
    Child.from_dict (.dict c10FalsyRule) =
      .ok (Child.mk (some bgBuilt) Option.none (some scBuilt)) ∧
    Child.from_dict (.dict []) =
      .ok (Child.mk Option.none Option.none Option.none) :=
  ⟨C10_no_exclusivity c10AllThree (some bgBuilt) (some ruleBuilt) (some scBuilt)
      (Or.inr (Or.inr ⟨bgRaw, bgBuilt, rfl, rfl, rfl, rfl⟩))
      (Or.inr (Or.inr ⟨ruleRaw, ruleBuilt, rfl, rfl, ruleRaw_builds, rfl⟩))
      (Or.inr (Or.inr ⟨scRaw, scBuilt, rfl, rfl, rfl, rfl⟩)),
    C10_no_exclusivity c10TwoOfThree (some bgBuilt) Option.none (some scBuilt)
      (Or.inr (Or.inr ⟨bgRaw, bgBuilt, rfl, rfl, rfl, rfl⟩))
      (Or.inl ⟨rfl, rfl⟩)
      (Or.inr (Or.inr ⟨scRaw, scBuilt, rfl, rfl, rfl, rfl⟩)),
    C10_no_exclusivity c10FalsyRule (some bgBuilt) Option.none (some scBuilt)
      (Or.inr (Or.inr ⟨bgRaw, bgBuilt, rfl, rfl, rfl, rfl⟩))
      (Or.inr (Or.inl ⟨PyVal.none, rfl, rfl, rfl⟩))
      (Or.inr (Or.inr ⟨scRaw, scBuilt, rfl, rfl, rfl, rfl⟩)),
    C10_no_exclusivity [] Option.none Option.none Option.none
      (Or.inl ⟨rfl, rfl⟩) (Or.inl ⟨rfl, rfl⟩) (Or.inl ⟨rfl, rfl⟩)⟩

end Gherkin
